import Mathlib

/-!
# ShiftralLead — verification of the two-phase quote-submission core

Shallow embedding of `src/server.js` (the `/submit-quote` handler and its
helpers `findRowByUUID`, `appendToSheet`, `updateRow`, `sendEmail`).

Modelling conventions:
* A JSON object whose values are strings is a partial map `String → Option String`
  (`none` = key absent / `undefined`).
* JS truthiness on such values: a present non-empty string is truthy;
  `undefined`, `null` and `""` are falsy.  `a || b` is `jsOr`.
* The external Google-Sheets and ZeptoMail calls are oracles: each call site
  is given its outcome (`Except String _`) up front, and the handler records
  every attempted side effect in a trace.  The three sheet-API calls inside
  `appendToSheet` are collapsed into one fallible "insert at top" write, and
  the single call inside `updateRow` into one fallible "update row" write;
  the claims depend only on which write is attempted and whether it fails.
-/

namespace ShiftraaLead

/-- A JS object with string values: a partial map from keys to strings
(`none` models an absent key / `undefined`). -/
abbrev Rec := String → Option String

/-- JS truthiness of a possibly-absent string value: truthy iff present and
non-empty. -/
def truthyS : Option String → Bool
  | some s => s ≠ ""
  | none => false

/-- `a || b` for a possibly-absent string `a` and a string fallback `b`. -/
def jsOr (a : Option String) (b : String) : String :=
  match a with
  | some s => if s = "" then b else s
  | none => b

/-- The fixed column schema `sheetColumns` of `server.js` (20 columns). -/
def sheetColumns : List String :=
  ["uuid", "timestamp", "name", "phone", "email", "move_scope",
   "home_type_details", "vehicle_selection", "moving_date", "requirements",
   "current_address", "new_address", "current_city", "new_city",
   "current_country", "from_city_international", "new_country",
   "to_city_international", "estimated_cost", "distance"]

/-- Position of a column name in a column list (JS `Array.prototype.indexOf`
restricted to the first hit; `none` when absent). -/
def colIndex (c : String) : List String → Option Nat
  | [] => none
  | x :: xs => if x = c then some 0 else (colIndex c xs).map (· + 1)

/-- `sheetColumns.forEach((col, i) => existingData[col] = existingRowValues[i] || '')`:
decode an ordered row into a named record; every schema column becomes present,
a missing trailing cell becomes `""`; non-schema keys are absent. -/
def decode (row : List String) : Rec := fun c =>
  (colIndex c sheetColumns).map (fun i => jsOr (row.get? i) "")

/-- `sheetColumns.map(colName => ...)`: encode a record into an ordered row.
The `phone` column is synthesized from `phone_country_code`/`phone_number`
whenever both are truthy; every other column (and `phone` otherwise) is
`finalData[colName] || ''`. -/
def encode (r : Rec) : List String :=
  sheetColumns.map fun c =>
    if c = "phone" ∧ truthyS (r "phone_country_code") ∧ truthyS (r "phone_number") then
      (r "phone_country_code").getD "" ++ (r "phone_number").getD ""
    else jsOr (r c) ""

/-- `finalData = { ...existingData, ...data, uuid: uuid }`: key-wise merge where
every key present in the incoming payload (even with an empty value) wins over
the existing record, and `uuid` is forced to the session identifier. -/
def mergeRecords (existing incoming : Rec) (uuid : String) : Rec := fun c =>
  if c = "uuid" then some uuid
  else match incoming c with
    | some v => some v
    | none => existing c

/-- `finalData = { ...data, uuid: uuid, timestamp: new Date().toISOString() }`:
the fresh-record branch, forcing `uuid` and a fresh `timestamp`. -/
def freshRecord (incoming : Rec) (uuid now : String) : Rec := fun c =>
  if c = "uuid" then some uuid
  else if c = "timestamp" then some now
  else incoming c

/-- `rows.findIndex(row => row[0] === uuid)`: index of the first row whose
first cell strictly equals `uuid` (an empty row's `row[0]` is `undefined`,
never equal to a string). -/
def findIndexRow (uuid : String) : List (List String) → Option Nat
  | [] => none
  | r :: rs =>
    if r.head? = some uuid then some 0 else (findIndexRow uuid rs).map (· + 1)

/-- `findRowByUUID`: given the outcome of the `Sheet1!A2:A` read
(`.error` = the sheets call threw; `.ok none` = `response.data.values` was
absent, treated as `[]`), return the sheet row number (match index + 2) of the
first matching row, `none` when absent, rethrowing a wrapped error on failure. -/
def findRowByUUID (resp : Except String (Option (List (List String))))
    (uuid : String) : Except String (Option Nat) :=
  match resp with
  | .error e => .error ("Failed to find row by UUID: " ++ e)
  | .ok v =>
    let rows := v.getD []
    match findIndexRow uuid rows with
    | some i => .ok (some (i + 2))
    | none => .ok none

/-- One attempted external side effect of the handler, in order of attempt. -/
inductive Effect where
  /-- A sheets read (the `A2:A` scan in `findRowByUUID`, or the full-row
  fetch in the merge branch). -/
  | storeRead : Effect
  /-- `appendToSheet data`: insert these values as a new top row (row 2). -/
  | insertTop : List String → Effect
  /-- `updateRow rowIndex data`: overwrite sheet row `rowIndex` with these values. -/
  | updateAt : Nat → List String → Effect
  /-- `sendEmail(ownerEmail, ...)`. -/
  | emailOwner : Effect
  /-- `sendEmail(finalData.email, ...)`: the user confirmation. -/
  | emailUser : String → Effect
deriving DecidableEq

/-- The observable HTTP response: status code, the `uuid` field of a success
body, the `success` flag, the `shiftraa_uuid` cookie set on the response (if
any), and whether the cookie was cleared. -/
structure Response where
  status : Nat
  uuid : Option String
  success : Bool
  setCookie : Option String
  clearCookie : Bool
deriving DecidableEq

/-- The `/submit-quote` request: the `shiftraa_uuid` cookie, `req.body.part`,
and `req.body.data` (`none` = absent/falsy). -/
structure Request where
  cookieUuid : Option String
  part : Option String
  data : Option Rec

/-- Outcomes of the external calls the handler may make, fixed up front:
the fresh `uuidv4()`, `new Date().toISOString()`, the `A2:A` column read,
the full-row read of the located row (`.ok none` = the API returned no
`values`, so `values[0]` throws), the sheet write (insert or update), and the
two email sends. -/
structure Oracle where
  freshUuid : String
  now : String
  readCol : Except String (Option (List (List String)))
  readRow : Except String (Option (List String))
  writeRes : Except String Unit
  ownerMail : Except String Unit
  userMail : Except String Unit

/-- The HTTP 400 validation response `{ message: 'Missing or invalid data/part in request' }`. -/
def resp400 : Response := ⟨400, none, false, none, false⟩

/-- The HTTP 500 response `{ message: 'Error submitting quote', error }` sent by
the outer catch; a cookie already set on the response object survives. -/
def resp500 (setCookie : Option String) : Response := ⟨500, none, false, setCookie, false⟩

/-- The email-sending tail of the handler, after a successful sheet write:
part 1 sends the owner mail; part 2 sends the owner mail, then the user
confirmation when `finalData.email` is truthy, then clears the cookie.  Each
`await sendEmail` is unguarded, so a failure aborts to the outer catch (500). -/
def finishEmails (part uuid : String) (setC : Option String) (finalData : Rec)
    (o : Oracle) (eff : List Effect) : Response × List Effect :=
  if part = "1" then
    match o.ownerMail with
    | .error _ => (resp500 setC, eff ++ [.emailOwner])
    | .ok _ => (⟨200, some uuid, true, setC, false⟩, eff ++ [.emailOwner])
  else
    match o.ownerMail with
    | .error _ => (resp500 setC, eff ++ [.emailOwner])
    | .ok _ =>
      if truthyS (finalData "email") then
        match o.userMail with
        | .error _ =>
          (resp500 setC, eff ++ [.emailOwner, .emailUser ((finalData "email").getD "")])
        | .ok _ =>
          (⟨200, some uuid, true, setC, true⟩,
           eff ++ [.emailOwner, .emailUser ((finalData "email").getD "")])
      else (⟨200, some uuid, true, setC, true⟩, eff ++ [.emailOwner])

/-- The `/submit-quote` handler: validation, uuid resolution
(`req.cookies.shiftraa_uuid || data.uuid || uuidv4()`), row lookup, the
part-2 merge branch vs the fresh-record branch, the sheet write, the part-1
cookie, and the email tail.  Any thrown store/mail error reaches the outer
catch and yields the 500 response.  Returns the response and the trace of
attempted side effects. -/
def submitQuote (req : Request) (o : Oracle) : Response × List Effect :=
  match req.data, req.part with
  | some d, some part =>
    if part = "1" ∨ part = "2" then
      let uuid := jsOr req.cookieUuid (jsOr (d "uuid") o.freshUuid)
      match findRowByUUID o.readCol uuid with
      | .error _ => (resp500 none, [.storeRead])
      | .ok rowIndex =>
        if part = "2" ∧ rowIndex.isSome then
          match o.readRow with
          | .error _ => (resp500 none, [.storeRead, .storeRead])
          | .ok none => (resp500 none, [.storeRead, .storeRead])
          | .ok (some rowVals) =>
            let finalData := mergeRecords (decode rowVals) d uuid
            let sheetData := encode finalData
            let k := rowIndex.getD 0
            match o.writeRes with
            | .error _ => (resp500 none, [.storeRead, .storeRead, .updateAt k sheetData])
            | .ok _ =>
              finishEmails part uuid none finalData o
                [.storeRead, .storeRead, .updateAt k sheetData]
        else
          let finalData := freshRecord d uuid o.now
          let sheetData := encode finalData
          match o.writeRes with
          | .error _ => (resp500 none, [.storeRead, .insertTop sheetData])
          | .ok _ =>
            let setC := if part = "1" then some uuid else none
            finishEmails part uuid setC finalData o [.storeRead, .insertTop sheetData]
    else (resp400, [])
  | _, _ => (resp400, [])

/-- Is this effect a store write (insert or update)? -/
def isStoreWrite : Effect → Bool
  | .insertTop _ => true
  | .updateAt _ _ => true
  | _ => false

/-- Is this effect an update-in-place write? -/
def isUpdate : Effect → Bool
  | .updateAt _ _ => true
  | _ => false

/-- Is this effect an insert-at-top write? -/
def isInsert : Effect → Bool
  | .insertTop _ => true
  | _ => false

/-- Is this effect an email send? -/
def isEmail : Effect → Bool
  | .emailOwner => true
  | .emailUser _ => true
  | _ => false

/-- A concrete valid part-1 payload (the spec's Scenario A fields). -/
def exData : Rec := fun c =>
  if c = "name" then some "Jane"
  else if c = "phone_country_code" then some "+1"
  else if c = "phone_number" then some "5551234"
  else if c = "move_scope" then some "Local"
  else if c = "moving_date" then some "2024-05-01"
  else none

/-- An oracle where the sheet is empty, the write succeeds, and the owner
email send fails. -/
def mailFailOracle : Oracle :=
  ⟨"u-fresh", "2024-01-01T00:00:00Z", .ok (some []), .ok none,
   .ok (), .error "smtp down", .ok ()⟩

/-- An oracle where the sheet already holds one row for session `sess-1` and
every external call succeeds. -/
def rowFoundOracle : Oracle :=
  ⟨"u-f", "T1", .ok (some [["sess-1"]]), .ok none, .ok (), .ok (), .ok ()⟩

/-- A concrete stored record with a uuid, an original timestamp, and a name. -/
def storedR : Rec := fun c =>
  if c = "uuid" then some "u0"
  else if c = "timestamp" then some "T0"
  else if c = "name" then some "Jane"
  else none

/-- A concrete incoming payload whose `name` field is present but empty. -/
def emptyNameP : Rec := fun c => if c = "name" then some "" else none

/-- A concrete incoming payload carrying its own `timestamp` field. -/
def timestampP : Rec := fun c => if c = "timestamp" then some "HACK" else none

/-- A concrete record carrying a combined `phone` value AND both phone
subfields. -/
def combinedPhoneRec : Rec := fun c =>
  if c = "phone" then some "+15551234"
  else if c = "phone_country_code" then some "+9"
  else if c = "phone_number" then some "111"
  else none

/-- A concrete sparse record whose present fields all lie in the schema. -/
def sparseRec : Rec := fun c =>
  if c = "name" then some "Jane"
  else if c = "email" then some ""
  else none

/-- A concrete part-2 payload addressing an existing session by body uuid. -/
def takeoverP : Rec := fun c =>
  if c = "uuid" then some "victim-session"
  else if c = "name" then some "Mallory"
  else none

/-- An oracle where the sheet holds the row of session `victim-session` and
every external call succeeds. -/
def takeoverOracle : Oracle :=
  ⟨"u-t", "T2", .ok (some [["victim-session"]]), .ok (some ["victim-session", "T0", "Jane"]),
   .ok (), .ok (), .ok ()⟩

/-- An oracle where the sheet is empty and every external call succeeds. -/
def emptySheetOracle : Oracle :=
  ⟨"u-e", "T3", .ok (some []), .ok none, .ok (), .ok (), .ok ()⟩

/-! ## Helper lemmas -/

theorem jsOr_some_jsOr (x : Option String) : jsOr (some (jsOr x "")) "" = jsOr x "" := by
  cases x with
  | none => simp [jsOr]
  | some s =>
    by_cases h : s = "" <;> simp [jsOr, h]

theorem colIndex_eq_none_of_not_mem {c : String} {l : List String} (h : c ∉ l) :
    colIndex c l = none := by
  induction l with
  | nil => rfl
  | cons x xs ih =>
    have hx : ¬x = c := fun hxc => h (hxc ▸ List.mem_cons_self x xs)
    have hxs : c ∉ xs := fun hm => h (List.mem_cons_of_mem x hm)
    simp [colIndex, hx, ih hxs]

theorem colIndex_isSome_of_mem {c : String} {l : List String} (h : c ∈ l) :
    ∃ i, colIndex c l = some i := by
  induction l with
  | nil => cases h
  | cons x xs ih =>
    by_cases hx : x = c
    · exact ⟨0, by simp [colIndex, hx]⟩
    · rcases List.mem_cons.mp h with h' | h'
      · exact absurd h'.symm hx
      · obtain ⟨i, hi⟩ := ih h'
        exact ⟨i + 1, by simp [colIndex, hx, hi]⟩

theorem colIndex_get? {c : String} {l : List String} {i : Nat}
    (h : colIndex c l = some i) : l.get? i = some c := by
  induction l generalizing i with
  | nil => simp [colIndex] at h
  | cons x xs ih =>
    by_cases hx : x = c
    · simp only [colIndex, if_pos hx] at h
      cases h
      simp [hx]
    · simp only [colIndex, if_neg hx, Option.map_eq_some'] at h
      obtain ⟨j, hj, rfl⟩ := h
      simpa using ih hj

theorem findIndexRow_none_iff (u : String) (l : List (List String)) :
    findIndexRow u l = none ↔ ∀ row ∈ l, row.head? ≠ some u := by
  induction l with
  | nil => simp [findIndexRow]
  | cons r rs ih =>
    by_cases h : r.head? = some u <;> simp [findIndexRow, h, ih]

theorem findIndexRow_some_iff (u : String) (l : List (List String)) (i : Nat) :
    findIndexRow u l = some i ↔
      ∃ row, l.get? i = some row ∧ row.head? = some u ∧
        ∀ j, j < i → ∀ row2, l.get? j = some row2 → row2.head? ≠ some u := by
  induction l generalizing i with
  | nil => simp [findIndexRow]
  | cons r rs ih =>
    by_cases h : r.head? = some u
    · simp only [findIndexRow, if_pos h]
      constructor
      · intro he
        cases he
        exact ⟨r, rfl, h, fun j hj => absurd hj (Nat.not_lt_zero j)⟩
      · rintro ⟨row, hrow, hhead, hbefore⟩
        cases i with
        | zero => rfl
        | succ k =>
          exact absurd h (hbefore 0 (Nat.succ_pos k) r rfl)
    · simp only [findIndexRow, if_neg h, Option.map_eq_some']
      cases i with
      | zero =>
        constructor
        · rintro ⟨k, _, hk⟩
          exact absurd hk (Nat.succ_ne_zero k)
        · rintro ⟨row, hrow, hhead, _⟩
          simp only [List.get?_cons_zero, Option.some.injEq] at hrow
          exact absurd (hrow ▸ hhead) h
      | succ k =>
        constructor
        · rintro ⟨k', hk', hkk⟩
          have hkeq : k' = k := Nat.succ_injective hkk
          obtain ⟨row, hrow, hhead, hbefore⟩ := (ih k).mp (hkeq ▸ hk')
          refine ⟨row, by simpa using hrow, hhead, ?_⟩
          intro j hj row2 hrow2
          cases j with
          | zero =>
            simp only [List.get?_cons_zero, Option.some.injEq] at hrow2
            exact fun hc => h (hrow2 ▸ hc)
          | succ j' =>
            simp only [List.get?_cons_succ] at hrow2
            exact hbefore j' (Nat.lt_of_succ_lt_succ hj) row2 hrow2
        · rintro ⟨row, hrow, hhead, hbefore⟩
          simp only [List.get?_cons_succ] at hrow
          refine ⟨k, (ih k).mpr ⟨row, hrow, hhead, ?_⟩, rfl⟩
          intro j hj row2 hrow2
          exact hbefore (j + 1) (Nat.succ_lt_succ hj) row2 (by simpa using hrow2)

theorem finishEmails_trace (part uuid : String) (setC : Option String)
    (fd : Rec) (o : Oracle) (eff : List Effect) :
    ∃ tail, (finishEmails part uuid setC fd o eff).2 = eff ++ tail ∧
      ∀ x ∈ tail, isEmail x = true := by
  unfold finishEmails
  by_cases hp : part = "1"
  · simp only [if_pos hp]
    cases o.ownerMail <;> exact ⟨[.emailOwner], rfl, by simp [isEmail]⟩
  · simp only [if_neg hp]
    cases o.ownerMail with
    | error e => exact ⟨[.emailOwner], rfl, by simp [isEmail]⟩
    | ok _ =>
      by_cases he : truthyS (fd "email") = true
      · simp only [if_pos he]
        cases o.userMail with
        | error e =>
          exact ⟨[.emailOwner, .emailUser ((fd "email").getD "")], rfl, by simp [isEmail]⟩
        | ok _ =>
          exact ⟨[.emailOwner, .emailUser ((fd "email").getD "")], rfl, by simp [isEmail]⟩
      · simp only [if_neg he]
        exact ⟨[.emailOwner], rfl, by simp [isEmail]⟩

/-- Shape of the effect trace along the fresh-record (insert) path: whenever
the part-2-merge condition fails, the handler records the column read and the
attempted top-insert of the encoded fresh record, followed only by email
effects. -/
theorem submitQuote_insert_path (cu : Option String) (d : Rec) (part : String)
    (o : Oracle) (hval : part = "1" ∨ part = "2") (ri : Option Nat)
    (hfr : findRowByUUID o.readCol (jsOr cu (jsOr (d "uuid") o.freshUuid)) = Except.ok ri)
    (hnotmerge : ¬(part = "2" ∧ ri.isSome = true)) :
    ∃ tail, (submitQuote ⟨cu, some part, some d⟩ o).2 =
      [Effect.storeRead,
       Effect.insertTop (encode (freshRecord d (jsOr cu (jsOr (d "uuid") o.freshUuid)) o.now))]
        ++ tail ∧ ∀ x ∈ tail, isEmail x = true := by
  simp only [submitQuote]
  rw [if_pos hval, hfr]
  simp only [if_neg hnotmerge]
  cases hw : o.writeRes with
  | error e => exact ⟨[], by simp, by simp⟩
  | ok _ =>
    obtain ⟨tail, htail, hmail⟩ :=
      finishEmails_trace part (jsOr cu (jsOr (d "uuid") o.freshUuid))
        (if part = "1" then some (jsOr cu (jsOr (d "uuid") o.freshUuid)) else none)
        (freshRecord d (jsOr cu (jsOr (d "uuid") o.freshUuid)) o.now) o
        [Effect.storeRead,
         Effect.insertTop (encode (freshRecord d (jsOr cu (jsOr (d "uuid") o.freshUuid)) o.now))]
    exact ⟨tail, htail, hmail⟩

/-- Shape of the effect trace along the part-2 merge (update) path. -/
theorem submitQuote_update_path (cu : Option String) (d : Rec) (o : Oracle)
    (i : Nat) (vals : List String)
    (hfr : findRowByUUID o.readCol (jsOr cu (jsOr (d "uuid") o.freshUuid)) =
      Except.ok (some i))
    (hrow : o.readRow = Except.ok (some vals)) :
    ∃ tail, (submitQuote ⟨cu, some "2", some d⟩ o).2 =
      [Effect.storeRead, Effect.storeRead,
       Effect.updateAt i
         (encode (mergeRecords (decode vals) d (jsOr cu (jsOr (d "uuid") o.freshUuid))))]
        ++ tail ∧ ∀ x ∈ tail, isEmail x = true := by
  simp only [submitQuote, hfr, hrow, or_true, if_true, ite_true, Option.isSome_some,
    and_self, true_and, Option.getD_some]
  cases hw : o.writeRes with
  | error e => exact ⟨[], by simp, by simp⟩
  | ok _ =>
    obtain ⟨tail, htail, hmail⟩ :=
      finishEmails_trace "2" (jsOr cu (jsOr (d "uuid") o.freshUuid)) none
        (mergeRecords (decode vals) d (jsOr cu (jsOr (d "uuid") o.freshUuid))) o
        [Effect.storeRead, Effect.storeRead,
         Effect.updateAt i
           (encode (mergeRecords (decode vals) d (jsOr cu (jsOr (d "uuid") o.freshUuid))))]
    exact ⟨tail, htail, hmail⟩

/-! ## Claims -/

/-- C1: a part-1 submission whose sheet write succeeds but whose owner email
send fails is aborted by the unguarded `await sendEmail`: the outer catch
returns HTTP 500 with `success` absent/false, not the claimed 200 success
response — even though exactly one store write was attempted and succeeded. -/
theorem c1_email_failure_aborts_request :
    mailFailOracle.writeRes = Except.ok () ∧
    ((submitQuote ⟨none, some "1", some exData⟩ mailFailOracle).2.filter isStoreWrite).length
      = 1 ∧
    Effect.emailOwner ∈ (submitQuote ⟨none, some "1", some exData⟩ mailFailOracle).2 ∧
    (submitQuote ⟨none, some "1", some exData⟩ mailFailOracle).1.status = 500 ∧
    (submitQuote ⟨none, some "1", some exData⟩ mailFailOracle).1.success = false := by
  refine ⟨rfl, ?_, ?_, ?_, ?_⟩ <;> decide

/-- C2 (counterexample): merging a payload whose `name` field is present but
empty overwrites the stored non-empty `name` with the empty string, so a
stored value is silently lost for a field that is empty in the payload. -/
theorem c2_counterexample :
    emptyNameP "name" = some "" ∧ storedR "name" = some "Jane" ∧
    mergeRecords storedR emptyNameP "u0" "name" = some "" ∧
    mergeRecords storedR emptyNameP "u0" "name" ≠ storedR "name" := by
  decide

/-- C2 (amended): the spread-based merge overwrites a field whenever the
payload supplies it at all, empty or not — `merge(R,P)[f] = P[f]` for every
field present in `P` (other than `uuid`, which is forced to the session
identifier), and `merge(R,P)[f] = R[f]` only for fields absent from `P`. -/
theorem c2_merge_present_wins (R P : Rec) (u f v : String) (hf : f ≠ "uuid") :
    (P f = some v → mergeRecords R P u f = some v) ∧
    (P f = none → mergeRecords R P u f = R f) ∧
    mergeRecords R P u "uuid" = some u := by
  refine ⟨fun h => ?_, fun h => ?_, ?_⟩ <;> simp [mergeRecords, hf]
  · rw [h]
  · rw [h]

theorem c2_merge_present_wins_witness :
    mergeRecords storedR emptyNameP "u0" "name" = some "" ∧
    mergeRecords storedR emptyNameP "u0" "uuid" = some "u0" :=
  ⟨(c2_merge_present_wins storedR emptyNameP "u0" "name" "" (by decide)).1 (by decide),
   (c2_merge_present_wins storedR emptyNameP "u0" "name" "" (by decide)).2.2⟩

/-- C4 (counterexample): a payload carrying its own `timestamp` key overwrites
the stored record's timestamp in the merge, so `created_at` is NOT preserved
"regardless of any timestamp values P may carry". -/
theorem c4_counterexample :
    timestampP "timestamp" = some "HACK" ∧ storedR "timestamp" = some "T0" ∧
    mergeRecords storedR timestampP "u0" "timestamp" ≠ storedR "timestamp" := by
  decide

/-- C4 (amended): the merge always forces `uuid` to the session identifier
(hence equal to the existing record's uuid when that record was located by
it), and it carries the existing `timestamp` over only when the payload
supplies no `timestamp` field; a payload-supplied timestamp wins. -/
theorem c4_identity_fields (R P : Rec) (u : String) :
    mergeRecords R P u "uuid" = some u ∧
    (R "uuid" = some u → mergeRecords R P u "uuid" = R "uuid") ∧
    (P "timestamp" = none → mergeRecords R P u "timestamp" = R "timestamp") ∧
    (∀ v, P "timestamp" = some v → mergeRecords R P u "timestamp" = some v) := by
  refine ⟨?_, fun h => ?_, fun h => ?_, fun v h => ?_⟩ <;> simp [mergeRecords]
  · rw [h]
  · rw [h]
  · rw [h]

theorem c4_identity_fields_witness :
    mergeRecords storedR timestampP "u0" "uuid" = storedR "uuid" ∧
    mergeRecords storedR timestampP "u0" "timestamp" = some "HACK" :=
  ⟨(c4_identity_fields storedR timestampP "u0").2.1 (by decide),
   (c4_identity_fields storedR timestampP "u0").2.2.2 "HACK" (by decide)⟩

/-- C6 (counterexample): a record that already carries a combined `phone`
value but also both phone subfields has its phone column synthesized from the
subfields, not emitted as-is: the stored `+15551234` is replaced by `+9111`. -/
theorem c6_counterexample :
    combinedPhoneRec "phone" = some "+15551234" ∧
    (encode combinedPhoneRec).get? 3 = some "+9111" := by
  decide

/-- C6 (amended): at encode time the phone column is synthesized from the
country-code and local-number subfields whenever BOTH are present and
non-empty — regardless of whether a combined `phone` value is already present;
the record's own `phone` value is emitted only when some subfield is
absent or empty. -/
theorem c6_phone_synthesis (r : Rec) :
    ((truthyS (r "phone_country_code") = true ∧ truthyS (r "phone_number") = true) →
      (encode r).get? 3 =
        some ((r "phone_country_code").getD "" ++ (r "phone_number").getD "")) ∧
    (¬(truthyS (r "phone_country_code") = true ∧ truthyS (r "phone_number") = true) →
      (encode r).get? 3 = some (jsOr (r "phone") "")) := by
  constructor
  · rintro ⟨h1, h2⟩
    simp [encode, sheetColumns, h1, h2]
  · intro h
    rcases Decidable.not_and_iff_or_not.mp h with h1 | h1 <;>
      simp only [Bool.not_eq_true] at h1 <;>
      simp [encode, sheetColumns, h1]

theorem c6_phone_synthesis_witness :
    (encode combinedPhoneRec).get? 3 =
      some ((combinedPhoneRec "phone_country_code").getD "" ++
        (combinedPhoneRec "phone_number").getD "") :=
  (c6_phone_synthesis combinedPhoneRec).1 ⟨by decide, by decide⟩

/-- C5: the codec round-trips: for any record whose present fields are all
schema columns, `encode` emits exactly `sheetColumns.length` values, and
`decode (encode r)` agrees with `r` on the value of every key (reading an
absent field as the empty string, exactly as both codec directions do). -/
theorem c5_codec_roundtrip (r : Rec)
    (hr : ∀ c, (r c).isSome = true → c ∈ sheetColumns) :
    (encode r).length = sheetColumns.length ∧
    ∀ c, jsOr (decode (encode r) c) "" = jsOr (r c) "" := by
  have hcc : r "phone_country_code" = none := by
    by_cases h : (r "phone_country_code").isSome = true
    · exact absurd (hr _ h) (by decide)
    · exact Option.not_isSome_iff_eq_none.mp h
  constructor
  · simp [encode]
  · intro c
    by_cases hc : c ∈ sheetColumns
    · obtain ⟨i, hi⟩ := colIndex_isSome_of_mem hc
      have hgeti : sheetColumns.get? i = some c := colIndex_get? hi
      have henc : (encode r).get? i = some (jsOr (r c) "") := by
        rw [encode, List.get?_map, hgeti, Option.map_some']
        have : ¬(c = "phone" ∧ truthyS (r "phone_country_code") = true ∧
            truthyS (r "phone_number") = true) := by
          rintro ⟨-, hct, -⟩
          rw [hcc] at hct
          simp [truthyS] at hct
        simp [this]
      rw [decode, hi, Option.map_some', henc, jsOr_some_jsOr, jsOr_some_jsOr]
    · have h1 : colIndex c sheetColumns = none := colIndex_eq_none_of_not_mem hc
      have h2 : r c = none := by
        by_cases h : (r c).isSome = true
        · exact absurd (hr _ h) hc
        · exact Option.not_isSome_iff_eq_none.mp h
      rw [decode, h1, h2]
      rfl

/-- C3 (counterexample): a phase-1 submission whose session cookie matches the
existing row `sess-1` (located at sheet row 2) nevertheless inserts a new top
row and performs no update, returning 200 — the claimed update-in-place does
not happen for phase 1. -/
theorem c3_counterexample :
    findRowByUUID rowFoundOracle.readCol "sess-1" = Except.ok (some 2) ∧
    ((submitQuote ⟨some "sess-1", some "1", some exData⟩ rowFoundOracle).2.filter
      isUpdate).length = 0 ∧
    ((submitQuote ⟨some "sess-1", some "1", some exData⟩ rowFoundOracle).2.filter
      isInsert).length = 1 ∧
    (submitQuote ⟨some "sess-1", some "1", some exData⟩ rowFoundOracle).1.status = 200 := by
  refine ⟨rfl, ?_, ?_, ?_⟩ <;> decide

/-- C3 (amended): update-in-place happens only for phase-2 submissions with a
found row; a phase-1 submission never updates any row — it always takes the
insert path (a new top row is attempted whenever the lookup succeeds),
whether or not a record for the session already exists. -/
theorem c3_phase1_always_inserts (req : Request) (o : Oracle)
    (hp : req.part = some "1") :
    (∀ n vals, Effect.updateAt n vals ∉ (submitQuote req o).2) ∧
    (∀ d ri, req.data = some d →
      findRowByUUID o.readCol (jsOr req.cookieUuid (jsOr (d "uuid") o.freshUuid)) =
        Except.ok ri →
      Effect.insertTop (encode (freshRecord d (jsOr req.cookieUuid
        (jsOr (d "uuid") o.freshUuid)) o.now)) ∈ (submitQuote req o).2) := by
  obtain ⟨cu, pp, dd⟩ := req
  simp only at hp
  subst hp
  cases dd with
  | none =>
    constructor
    · intro n vals
      simp [submitQuote]
    · intro d ri hd
      exact absurd hd (by simp)
  | some d =>
    cases hfr : findRowByUUID o.readCol (jsOr cu (jsOr (d "uuid") o.freshUuid)) with
    | error e =>
      constructor
      · intro n vals
        simp [submitQuote, hfr]
      · intro d' ri hd hfr'
        cases hd
        rw [hfr] at hfr'
        exact Except.noConfusion hfr'
    | ok ri =>
      obtain ⟨tail, htail, hmail⟩ := submitQuote_insert_path cu d "1" o (Or.inl rfl) ri hfr
        (by simp)
      constructor
      · intro n vals hmem
        rw [htail] at hmem
        rcases List.mem_append.mp hmem with hmem | hmem
        · simp at hmem
        · have := hmail _ hmem
          simp [isEmail] at this
      · intro d' ri' hd hfr'
        cases hd
        rw [htail]
        exact List.mem_append_left _ (by simp)

theorem c3_phase1_always_inserts_witness :
    Effect.updateAt 2 [] ∉
      (submitQuote ⟨some "sess-1", some "1", some exData⟩ rowFoundOracle).2 ∧
    Effect.insertTop (encode (freshRecord exData (jsOr (some "sess-1")
        (jsOr (exData "uuid") rowFoundOracle.freshUuid)) rowFoundOracle.now)) ∈
      (submitQuote ⟨some "sess-1", some "1", some exData⟩ rowFoundOracle).2 :=
  ⟨(c3_phase1_always_inserts ⟨some "sess-1", some "1", some exData⟩ rowFoundOracle rfl).1
      2 [],
   (c3_phase1_always_inserts ⟨some "sess-1", some "1", some exData⟩ rowFoundOracle rfl).2
      exData (some 2) rfl rfl⟩

/-- C7: a phase-2 submission whose resolved session identifier matches no
stored row takes the fresh-record path: the trace contains the attempted
insert of the encoded fresh record (whose `timestamp` is the fresh `now`) and
never an update of any row. -/
theorem c7_phase2_unknown_session_inserts (cu : Option String) (d : Rec) (o : Oracle)
    (v : Option (List (List String)))
    (hcol : o.readCol = Except.ok v)
    (hnone : ∀ row ∈ v.getD [], row.head? ≠ some (jsOr cu (jsOr (d "uuid") o.freshUuid))) :
    Effect.insertTop (encode (freshRecord d (jsOr cu (jsOr (d "uuid") o.freshUuid)) o.now))
        ∈ (submitQuote ⟨cu, some "2", some d⟩ o).2 ∧
    (∀ n vals, Effect.updateAt n vals ∉ (submitQuote ⟨cu, some "2", some d⟩ o).2) ∧
    freshRecord d (jsOr cu (jsOr (d "uuid") o.freshUuid)) o.now "timestamp" = some o.now := by
  have hfr : findRowByUUID o.readCol (jsOr cu (jsOr (d "uuid") o.freshUuid)) =
      Except.ok none := by
    simp only [findRowByUUID, hcol]
    rw [(findIndexRow_none_iff _ _).mpr hnone]
  obtain ⟨tail, htail, hmail⟩ := submitQuote_insert_path cu d "2" o (Or.inr rfl) none hfr
    (by simp)
  refine ⟨?_, ?_, ?_⟩
  · rw [htail]
    exact List.mem_append_left _ (by simp)
  · intro n vals hmem
    rw [htail] at hmem
    rcases List.mem_append.mp hmem with hmem | hmem
    · simp at hmem
    · have := hmail _ hmem
      simp [isEmail] at this
  · simp [freshRecord]

theorem c7_phase2_unknown_session_inserts_witness :
    Effect.insertTop (encode (freshRecord exData (jsOr none
        (jsOr (exData "uuid") emptySheetOracle.freshUuid)) emptySheetOracle.now)) ∈
      (submitQuote ⟨none, some "2", some exData⟩ emptySheetOracle).2 ∧
    Effect.updateAt 2 [] ∉ (submitQuote ⟨none, some "2", some exData⟩ emptySheetOracle).2 :=
  ⟨(c7_phase2_unknown_session_inserts none exData emptySheetOracle (some []) rfl
      (by simp)).1,
   (c7_phase2_unknown_session_inserts none exData emptySheetOracle (some []) rfl
      (by simp)).2.1 2 []⟩

/-- C8: the row locator: a failed column read is propagated as an error (and
surfaces as an HTTP 500 with no further side effects), never returned as the
not-found sentinel; a successful read returns `first-match-index + 2` (the
externally-addressable sheet row below the header) of the first row whose
first cell equals the session id, or `none` when no row matches. -/
theorem c8_locator :
    (∀ e u, ∃ msg, findRowByUUID (Except.error e) u = Except.error msg) ∧
    (∀ v u n, findRowByUUID (Except.ok v) u = Except.ok (some n) ↔
      ∃ i, n = i + 2 ∧ ∃ row, (v.getD []).get? i = some row ∧ row.head? = some u ∧
        ∀ j, j < i → ∀ row2, (v.getD []).get? j = some row2 → row2.head? ≠ some u) ∧
    (∀ v u, findRowByUUID (Except.ok v) u = Except.ok none ↔
      ∀ row ∈ v.getD [], row.head? ≠ some u) ∧
    (∀ cu d part o e, (part = "1" ∨ part = "2") → o.readCol = Except.error e →
      (submitQuote ⟨cu, some part, some d⟩ o).1.status = 500 ∧
      (submitQuote ⟨cu, some part, some d⟩ o).2 = [Effect.storeRead]) := by
  refine ⟨fun e u => ⟨_, rfl⟩, fun v u n => ?_, fun v u => ?_, fun cu d part o e hval hcol => ?_⟩
  · cases hfi : findIndexRow u (v.getD []) with
    | none =>
      simp only [findRowByUUID, hfi]
      constructor
      · intro h
        exact absurd h (by simp)
      · rintro ⟨i, -, row, hrow, hhead, -⟩
        have := (findIndexRow_none_iff u (v.getD [])).mp hfi row (List.get?_mem hrow)
        exact absurd hhead this
    | some i =>
      simp only [findRowByUUID, hfi]
      constructor
      · intro h
        have hn : n = i + 2 := (Option.some.inj (Except.ok.inj h)).symm
        exact ⟨i, hn, (findIndexRow_some_iff u (v.getD []) i).mp hfi⟩
      · rintro ⟨i', hn, hspec⟩
        have h2 : findIndexRow u (v.getD []) = some i' :=
          (findIndexRow_some_iff u (v.getD []) i').mpr hspec
        rw [hfi] at h2
        have hii : i = i' := Option.some.inj h2
        rw [hn, ← hii]
  · cases hfi : findIndexRow u (v.getD []) with
    | none =>
      simp only [findRowByUUID, hfi]
      constructor
      · intro _
        exact (findIndexRow_none_iff u (v.getD [])).mp hfi
      · intro _
        trivial
    | some i =>
      simp only [findRowByUUID, hfi]
      constructor
      · intro h
        exact absurd h (by simp)
      · intro h
        have h2 := (findIndexRow_none_iff u (v.getD [])).mpr h
        rw [h2] at hfi
        exact Option.noConfusion hfi
  · have hfr : findRowByUUID o.readCol (jsOr cu (jsOr (d "uuid") o.freshUuid)) =
        Except.error ("Failed to find row by UUID: " ++ e) := by
      simp [findRowByUUID, hcol]
    constructor
    · simp only [submitQuote]
      rw [if_pos hval, hfr]
      rfl
    · simp only [submitQuote]
      rw [if_pos hval, hfr]

theorem c8_locator_witness :
    (∃ msg, findRowByUUID (Except.error "quota exceeded") "sess-1" = Except.error msg) ∧
    (submitQuote ⟨none, some "1", some exData⟩
      ⟨"u-x", "T4", Except.error "quota exceeded", Except.ok none, Except.ok (),
        Except.ok (), Except.ok ()⟩).1.status = 500 ∧
    (submitQuote ⟨none, some "1", some exData⟩
      ⟨"u-x", "T4", Except.error "quota exceeded", Except.ok none, Except.ok (),
        Except.ok (), Except.ok ()⟩).2 = [Effect.storeRead] :=
  ⟨c8_locator.1 "quota exceeded" "sess-1",
   (c8_locator.2.2.2 none exData "1"
      ⟨"u-x", "T4", Except.error "quota exceeded", Except.ok none, Except.ok (),
        Except.ok (), Except.ok ()⟩ "quota exceeded" (Or.inl rfl) rfl).1,
   (c8_locator.2.2.2 none exData "1"
      ⟨"u-x", "T4", Except.error "quota exceeded", Except.ok none, Except.ok (),
        Except.ok (), Except.ok ()⟩ "quota exceeded" (Or.inl rfl) rfl).2⟩

/-- C9: a request whose body lacks `data` or `part`, or whose `part` is
neither "1" nor "2", is rejected with the 400 response and an empty effect
trace: no store read, no store write, and no email send is attempted. -/
theorem c9_validation_no_side_effects (req : Request) (o : Oracle)
    (h : req.data = none ∨ req.part = none ∨
      (req.part ≠ some "1" ∧ req.part ≠ some "2")) :
    (submitQuote req o).1 = resp400 ∧ (submitQuote req o).2 = [] := by
  obtain ⟨cu, pp, dd⟩ := req
  cases dd with
  | none => cases pp <;> exact ⟨rfl, rfl⟩
  | some d =>
    cases pp with
    | none => exact ⟨rfl, rfl⟩
    | some part =>
      rcases h with h | h | h
      · simp at h
      · simp at h
      · obtain ⟨h1, h2⟩ := h
        have hp1 : part ≠ "1" := fun hh => h1 (by simp only at h1 ⊢; rw [hh])
        have hp2 : part ≠ "2" := fun hh => h2 (by simp only at h2 ⊢; rw [hh])
        simp only [submitQuote]
        rw [if_neg (by rintro (hc | hc) <;> [exact hp1 hc; exact hp2 hc])]
        exact ⟨rfl, rfl⟩

theorem c9_validation_no_side_effects_witness :
    (submitQuote ⟨none, some "3", some exData⟩ emptySheetOracle).1 = resp400 ∧
    (submitQuote ⟨none, some "3", some exData⟩ emptySheetOracle).2 = [] :=
  c9_validation_no_side_effects ⟨none, some "3", some exData⟩ emptySheetOracle
    (Or.inr (Or.inr ⟨by decide, by decide⟩))

/-- C10: with no session cookie, a `uuid` field inside the request body's
`data` object is adopted as the session identifier before a fresh one is
minted, and a phase-2 request carrying the uuid of any stored row is routed to
the update of that row — an overwrite without ever holding the row's token. -/
theorem c10_body_uuid_session_takeover (d : Rec) (u : String) (o : Oracle)
    (rows : List (List String)) (i : Nat) (vals : List String)
    (hu : u ≠ "") (hd : d "uuid" = some u)
    (hcol : o.readCol = Except.ok (some rows))
    (hfind : findIndexRow u rows = some i)
    (hrow : o.readRow = Except.ok (some vals)) :
    jsOr (none : Option String) (jsOr (d "uuid") o.freshUuid) = u ∧
    Effect.updateAt (i + 2) (encode (mergeRecords (decode vals) d u)) ∈
      (submitQuote ⟨none, some "2", some d⟩ o).2 := by
  have hres : jsOr (none : Option String) (jsOr (d "uuid") o.freshUuid) = u := by
    simp [jsOr, hd, hu]
  refine ⟨hres, ?_⟩
  have hfr : findRowByUUID o.readCol (jsOr none (jsOr (d "uuid") o.freshUuid)) =
      Except.ok (some (i + 2)) := by
    rw [hres]
    simp only [findRowByUUID, hcol, Option.getD_some]
    rw [hfind]
  obtain ⟨tail, htail, hmail⟩ := submitQuote_update_path none d o (i + 2) vals hfr hrow
  rw [htail, hres]
  exact List.mem_append_left _ (by simp)

theorem c10_body_uuid_session_takeover_witness :
    jsOr (none : Option String) (jsOr (takeoverP "uuid") takeoverOracle.freshUuid) =
      "victim-session" ∧
    Effect.updateAt 2 (encode (mergeRecords
        (decode ["victim-session", "T0", "Jane"]) takeoverP "victim-session")) ∈
      (submitQuote ⟨none, some "2", some takeoverP⟩ takeoverOracle).2 :=
  c10_body_uuid_session_takeover takeoverP "victim-session" takeoverOracle
    [["victim-session"]] 0 ["victim-session", "T0", "Jane"]
    (by decide) (by decide) rfl (by decide) rfl

theorem c5_codec_roundtrip_witness :
    (encode sparseRec).length = sheetColumns.length ∧
    jsOr (decode (encode sparseRec) "name") "" = jsOr (sparseRec "name") "" := by
  have h := c5_codec_roundtrip sparseRec (by
    intro c h
    unfold sparseRec at h
    split at h
    · subst c; decide
    · split at h
      · subst c; decide
      · simp at h)
  exact ⟨h.1, h.2 "name"⟩

end ShiftraaLead
